import Mathlib

/-!
Verification of the spaced-repetition scheduler of the FlashMath desktop
flashcard application (`src-tauri/src/srs.rs`).

Modelling conventions for the shallow embedding:

* Rust `f64` values are modelled as exact rationals (`ℚ`).  The scheduler's
  arithmetic is plain `+ - * / min max round` on small decimal constants, so
  the rational model is the algorithm the code implements.
* Rust `i32`/`i64` are modelled as `ℤ` (no claim concerns integer overflow).
* Timestamps (`chrono::NaiveDateTime` / `DateTime<Utc>`) are modelled as
  seconds since an arbitrary epoch, as `ℤ`.  `chrono`'s
  `(deadline_date - now).num_days()` divides the signed second difference by
  86400 truncating toward zero, which is `Int.tdiv`.
* The Rust function reads the ambient clock with `Utc::now()` in two places:
  once inside the deadline-compression block (only reached when a deadline
  string parses) and once when computing the due date.  Each read is made an
  explicit parameter (`now_deadline`, `now_due`) of the embedded function.
* The deadline argument is `Option<&str>` in Rust, parsed with
  `NaiveDateTime::parse_from_str("{deadline} 00:00:00", "%Y-%m-%d %H:%M:%S")`,
  a parse failure falling through to "no compression".  The external library
  parse is abstracted: the embedded function receives `Option ℤ`, the
  midnight timestamp of the parsed deadline date; `none` covers both an
  absent deadline and an unparseable string (both take the same code path).
* `Rust f64::round` rounds half away from zero; Mathlib's `round` rounds half
  up.  They agree on nonnegative arguments, and the value rounded here
  (`interval_days`) is proved to always be ≥ 1.
* The resulting due date is a formatted string in Rust; it is modelled as the
  underlying timestamp (`now + 86400 * round(interval_days)` seconds), since
  the formatting of distinct instants within the representable range is
  injective.
-/

namespace FlashMath

/-- Rust: `const MIN_EASE: f64 = 1.3;` -/
def MIN_EASE : ℚ := 13/10

/-- Seconds per day, the divisor `chrono::Duration::num_days` uses. -/
def secondsPerDay : ℤ := 86400

/-- Rust struct `SrsCard` (the persisted card state). -/
structure SrsCard where
  ease_factor : ℚ
  interval_days : ℚ
  repetitions : ℤ
  due_date : Option String
deriving DecidableEq

/-- Rust struct `ReviewInput` (one review event). -/
structure ReviewInput where
  correct : Bool
  response_time_seconds : ℚ
  timer_limit_seconds : ℚ
deriving DecidableEq

/-- Rust struct `SrsResult` (the scheduler's output).  `due_date` is the
timestamp the Rust code formats into the ISO-8601 string. -/
structure SrsResult where
  ease_factor : ℚ
  interval_days : ℚ
  repetitions : ℤ
  due_date : ℤ
  quality : ℤ
  speed_ratio : ℚ
deriving DecidableEq

/-- Rust `fn next_interval(reps: i32, prev_interval: f64, ease: f64,
speed_multiplier: f64) -> f64`: the graduation schedule
(`r <= 1 → 1.0`, `2 → 3.0`, otherwise `max(prev * ease * mult, 1.0)`). -/
def next_interval (reps : ℤ) (prev_interval : ℚ) (ease : ℚ)
    (speed_multiplier : ℚ) : ℚ :=
  if reps ≤ 1 then 1
  else if reps = 2 then 3
  else max (prev_interval * ease * speed_multiplier) 1

/-- The `speed_ratio` local of `calculate_srs`:
`if review.timer_limit_seconds > 0.0 { rt / limit } else { 1.0 }`. -/
def srs_speed_ratio (review : ReviewInput) : ℚ :=
  if 0 < review.timer_limit_seconds then
    review.response_time_seconds / review.timer_limit_seconds
  else 1

/-- The four mutable locals `quality`, `ease_factor`, `repetitions`,
`interval_days` as set by the `if/else if` chain of `calculate_srs`. -/
structure BranchOut where
  quality : ℤ
  ease_factor : ℚ
  repetitions : ℤ
  interval_days : ℚ
deriving DecidableEq

/-- The branch chain of `calculate_srs` (srs.rs lines 43–67): incorrect,
correct-fast (`speed_ratio <= 0.6`), correct-normal (`<= 1.0`),
correct-slow. -/
def srs_branch (card : SrsCard) (correct : Bool) (speed_ratio : ℚ) :
    BranchOut :=
  if correct = false then
    { quality := 0
      ease_factor := max (card.ease_factor - 1/5) MIN_EASE
      repetitions := 0
      interval_days := 1 }
  else if speed_ratio ≤ 3/5 then
    { quality := 5
      ease_factor := card.ease_factor + 3/20
      repetitions := card.repetitions + 1
      interval_days :=
        next_interval (card.repetitions + 1) card.interval_days
          (card.ease_factor + 3/20) (13/10) }
  else if speed_ratio ≤ 1 then
    { quality := 4
      ease_factor := card.ease_factor + 1/20
      repetitions := card.repetitions + 1
      interval_days :=
        next_interval (card.repetitions + 1) card.interval_days
          (card.ease_factor + 1/20) 1 }
  else
    { quality := 3
      ease_factor := max (card.ease_factor - 1/10) MIN_EASE
      repetitions := card.repetitions + 1
      interval_days :=
        next_interval (card.repetitions + 1) card.interval_days
          (max (card.ease_factor - 1/10) MIN_EASE) (4/5) }

/-- The deadline-compression block of `calculate_srs` (srs.rs lines 73–88).
`deadline = none` models both an absent deadline and a parse failure;
`some d` is the parsed deadline's midnight timestamp; `now` is the first
`Utc::now()` read.  `num_days` truncates toward zero (`Int.tdiv`). -/
def apply_deadline (interval_days : ℚ) (repetitions : ℤ)
    (deadline : Option ℤ) (now : ℤ) : ℚ :=
  match deadline with
  | none => interval_days
  | some deadline_date =>
    let days_remaining : ℚ := ((deadline_date - now).tdiv secondsPerDay : ℤ)
    if 0 < days_remaining then
      let reviews_still_needed : ℚ := ((max (6 - repetitions) 1 : ℤ) : ℚ)
      let max_interval := days_remaining / reviews_still_needed
      max (min interval_days max_interval) 1
    else interval_days

/-- Rust `pub fn calculate_srs(card: &SrsCard, review: &ReviewInput,
deadline: Option<&str>) -> SrsResult`.  `now_deadline` and `now_due` are the
two `Utc::now()` reads made explicit (deadline compression and due-date
computation respectively). -/
def calculate_srs (card : SrsCard) (review : ReviewInput)
    (deadline : Option ℤ) (now_deadline now_due : ℤ) : SrsResult :=
  let speed_ratio := srs_speed_ratio review
  let b := srs_branch card review.correct speed_ratio
  let ease_factor := max b.ease_factor MIN_EASE
  let interval_days :=
    apply_deadline b.interval_days b.repetitions deadline now_deadline
  { ease_factor := ease_factor
    interval_days := interval_days
    repetitions := b.repetitions
    due_date := now_due + secondsPerDay * round interval_days
    quality := b.quality
    speed_ratio := speed_ratio }

theorem one_le_next_interval (reps : ℤ) (p e m : ℚ) :
    1 ≤ next_interval reps p e m := by
  unfold next_interval
  split
  · exact le_refl 1
  · split
    · norm_num
    · exact le_max_right _ _

theorem one_le_branch_interval (card : SrsCard) (correct : Bool)
    (sr : ℚ) : 1 ≤ (srs_branch card correct sr).interval_days := by
  unfold srs_branch
  split
  · exact le_refl 1
  · split
    · exact one_le_next_interval _ _ _ _
    · split
      · exact one_le_next_interval _ _ _ _
      · exact one_le_next_interval _ _ _ _

theorem one_le_apply_deadline (i : ℚ) (reps : ℤ) (dl : Option ℤ) (now : ℤ)
    (h : 1 ≤ i) : 1 ≤ apply_deadline i reps dl now := by
  unfold apply_deadline
  match dl with
  | none => exact h
  | some d =>
    simp only
    split
    · exact le_max_right _ _
    · exact h

theorem apply_deadline_le (i : ℚ) (reps : ℤ) (dl : Option ℤ) (now : ℤ)
    (h : 1 ≤ i) : apply_deadline i reps dl now ≤ i := by
  unfold apply_deadline
  match dl with
  | none => exact le_refl i
  | some d =>
    simp only
    split
    · exact max_le (le_trans (min_le_left _ _) (le_refl i)) h
    · exact le_refl i

theorem apply_deadline_pos (i : ℚ) (reps : ℤ) (d now : ℤ)
    (h : 0 < (d - now).tdiv secondsPerDay) :
    apply_deadline i reps (some d) now
      = max (min i ((((d - now).tdiv secondsPerDay : ℤ) : ℚ)
          / ((max (6 - reps) 1 : ℤ) : ℚ))) 1 := by
  unfold apply_deadline
  simp only
  rw [if_pos (by exact_mod_cast h)]

theorem apply_deadline_nonpos (i : ℚ) (reps : ℤ) (d now : ℤ)
    (h : (d - now).tdiv secondsPerDay ≤ 0) :
    apply_deadline i reps (some d) now = i := by
  unfold apply_deadline
  simp only
  rw [if_neg (not_lt.mpr (by exact_mod_cast h))]

/-- C1: for every card, review and optional deadline (and any clock
readings), the returned `interval_days` is at least 1. -/
theorem srs_interval_floor (card : SrsCard) (review : ReviewInput)
    (dl : Option ℤ) (n1 n2 : ℤ) :
    1 ≤ (calculate_srs card review dl n1 n2).interval_days :=
  one_le_apply_deadline _ _ _ _ (one_le_branch_interval _ _ _)

/-- C2: the returned `ease_factor` is at least `MIN_EASE = 1.3`, and it is
exactly the branch-computed ease clamped by a final uniform `max` with
`MIN_EASE`, whatever the branch. -/
theorem srs_ease_floor (card : SrsCard) (review : ReviewInput)
    (dl : Option ℤ) (n1 n2 : ℤ) :
    MIN_EASE ≤ (calculate_srs card review dl n1 n2).ease_factor
    ∧ (calculate_srs card review dl n1 n2).ease_factor
        = max (srs_branch card review.correct
            (srs_speed_ratio review)).ease_factor MIN_EASE :=
  ⟨le_max_right _ _, rfl⟩

/-- C6: supplying any deadline (parsed or not) can only shrink
`interval_days`, never grow it, relative to the same call without one. -/
theorem srs_deadline_never_extends (card : SrsCard) (review : ReviewInput)
    (dl : Option ℤ) (n1 n2 : ℤ) :
    (calculate_srs card review dl n1 n2).interval_days
      ≤ (calculate_srs card review none n1 n2).interval_days :=
  apply_deadline_le _ _ _ _ (one_le_branch_interval _ _ _)

/-- C9 (counterexample): `calculate_srs` is not a function of
(card, review, deadline) alone — the clock is read from `Utc::now()` inside
the function rather than injected, so two invocations with identical Rust
arguments but different ambient clock readings return different results
(here the due dates differ by one day). -/
theorem srs_clock_is_hidden_input :
    calculate_srs ⟨5/2, 10, 3, none⟩ ⟨false, 30, 60⟩ none 0 0
      ≠ calculate_srs ⟨5/2, 10, 3, none⟩ ⟨false, 30, 60⟩ none 0 86400 := by
  intro h
  have hd := congrArg SrsResult.due_date h
  simp only [calculate_srs, apply_deadline, srs_branch, srs_speed_ratio,
    secondsPerDay] at hd
  norm_num at hd

/-- C9 (amended): with the two `Utc::now()` reads made explicit parameters,
`calculate_srs` is deterministic, and the fields `ease_factor`,
`repetitions`, `quality` and `speed_ratio` are independent of both clock
readings (only `interval_days` and `due_date` can depend on the clock). -/
theorem srs_clock_independent_fields (card : SrsCard) (review : ReviewInput)
    (dl : Option ℤ) (n1 n2 n1' n2' : ℤ) :
    (calculate_srs card review dl n1 n2).ease_factor
        = (calculate_srs card review dl n1' n2').ease_factor
    ∧ (calculate_srs card review dl n1 n2).repetitions
        = (calculate_srs card review dl n1' n2').repetitions
    ∧ (calculate_srs card review dl n1 n2).quality
        = (calculate_srs card review dl n1' n2').quality
    ∧ (calculate_srs card review dl n1 n2).speed_ratio
        = (calculate_srs card review dl n1' n2').speed_ratio :=
  ⟨rfl, rfl, rfl, rfl⟩

theorem srs_branch_incorrect (card : SrsCard) (sr : ℚ) :
    srs_branch card false sr
      = { quality := 0
          ease_factor := max (card.ease_factor - 1/5) MIN_EASE
          repetitions := 0
          interval_days := 1 } := by
  unfold srs_branch
  simp

theorem srs_branch_fast (card : SrsCard) (sr : ℚ) (h : sr ≤ 3/5) :
    srs_branch card true sr
      = { quality := 5
          ease_factor := card.ease_factor + 3/20
          repetitions := card.repetitions + 1
          interval_days :=
            next_interval (card.repetitions + 1) card.interval_days
              (card.ease_factor + 3/20) (13/10) } := by
  unfold srs_branch
  simp [h]

theorem srs_branch_normal (card : SrsCard) (sr : ℚ) (h1 : ¬ sr ≤ 3/5)
    (h2 : sr ≤ 1) :
    srs_branch card true sr
      = { quality := 4
          ease_factor := card.ease_factor + 1/20
          repetitions := card.repetitions + 1
          interval_days :=
            next_interval (card.repetitions + 1) card.interval_days
              (card.ease_factor + 1/20) 1 } := by
  unfold srs_branch
  simp [h1, h2]

theorem srs_branch_slow (card : SrsCard) (sr : ℚ) (h1 : ¬ sr ≤ 3/5)
    (h2 : ¬ sr ≤ 1) :
    srs_branch card true sr
      = { quality := 3
          ease_factor := max (card.ease_factor - 1/10) MIN_EASE
          repetitions := card.repetitions + 1
          interval_days :=
            next_interval (card.repetitions + 1) card.interval_days
              (max (card.ease_factor - 1/10) MIN_EASE) (4/5) } := by
  unfold srs_branch
  simp [h1, h2]

theorem srs_branch_repetitions_of_correct (card : SrsCard) (sr : ℚ) :
    (srs_branch card true sr).repetitions = card.repetitions + 1 := by
  unfold srs_branch
  split
  · simp at *
  · split
    · rfl
    · split
      · rfl
      · rfl

theorem max_max_self (a b : ℚ) : max (max a b) b = max a b := by
  rw [max_assoc, max_self]

theorem calculate_srs_eq (card : SrsCard) (review : ReviewInput)
    (dl : Option ℤ) (n1 n2 : ℤ) :
    calculate_srs card review dl n1 n2
      = { ease_factor :=
            max (srs_branch card review.correct
              (srs_speed_ratio review)).ease_factor MIN_EASE
          interval_days :=
            apply_deadline
              (srs_branch card review.correct
                (srs_speed_ratio review)).interval_days
              (srs_branch card review.correct
                (srs_speed_ratio review)).repetitions dl n1
          repetitions :=
            (srs_branch card review.correct
              (srs_speed_ratio review)).repetitions
          due_date :=
            n2 + secondsPerDay * round (apply_deadline
              (srs_branch card review.correct
                (srs_speed_ratio review)).interval_days
              (srs_branch card review.correct
                (srs_speed_ratio review)).repetitions dl n1)
          quality :=
            (srs_branch card review.correct (srs_speed_ratio review)).quality
          speed_ratio := srs_speed_ratio review } := rfl

/-- C3: for an incorrect review the scheduler resets `repetitions` to 0,
grades `quality` 0, sets `interval_days` to 1 when no deadline was given,
and drops the ease by 0.20 clamped at `MIN_EASE`; for every correct review
`repetitions` becomes `card.repetitions + 1`. -/
theorem srs_repetition_reset (card : SrsCard) (review : ReviewInput)
    (dl : Option ℤ) (n1 n2 : ℤ) :
    (review.correct = false →
        (calculate_srs card review dl n1 n2).repetitions = 0
        ∧ (calculate_srs card review dl n1 n2).quality = 0
        ∧ (calculate_srs card review dl n1 n2).ease_factor
            = max (card.ease_factor - 1/5) MIN_EASE
        ∧ (dl = none → (calculate_srs card review dl n1 n2).interval_days = 1))
    ∧ (review.correct = true →
        (calculate_srs card review dl n1 n2).repetitions
          = card.repetitions + 1) := by
  constructor
  · intro hc
    rw [calculate_srs_eq, hc, srs_branch_incorrect]
    refine ⟨rfl, rfl, max_max_self _ _, ?_⟩
    intro hdl
    subst hdl
    rfl
  · intro hc
    rw [calculate_srs_eq, hc]
    exact srs_branch_repetitions_of_correct card _

theorem srs_repetition_reset_witness :
    (calculate_srs ⟨5/2, 10, 3, none⟩ ⟨false, 30, 60⟩ none 0 0).repetitions = 0
    ∧ (calculate_srs ⟨5/2, 10, 3, none⟩ ⟨false, 30, 60⟩ none 0 0).quality = 0
    ∧ (calculate_srs ⟨5/2, 10, 3, none⟩ ⟨false, 30, 60⟩ none 0 0).ease_factor
        = 23/10
    ∧ (calculate_srs ⟨5/2, 10, 3, none⟩ ⟨false, 30, 60⟩ none 0 0).interval_days
        = 1
    ∧ (calculate_srs ⟨5/2, 10, 3, none⟩ ⟨true, 30, 60⟩ none 0 0).repetitions
        = 4 := by
  have h := srs_repetition_reset ⟨5/2, 10, 3, none⟩ ⟨false, 30, 60⟩ none 0 0
  have h2 := (srs_repetition_reset ⟨5/2, 10, 3, none⟩ ⟨true, 30, 60⟩ none 0 0).2
    rfl
  obtain ⟨hr, hq, he, hi⟩ := h.1 rfl
  refine ⟨hr, hq, ?_, hi rfl, by rw [h2]; norm_num⟩
  rw [he]
  norm_num [MIN_EASE]

/-- C4: the returned `quality` is always one of 0, 3, 4, 5, and together
with the ease update it is determined by correctness and speed ratio alone:
incorrect → 0 with ease delta −0.20; correct and `speed_ratio ≤ 0.6` → 5
with +0.15; correct and `0.6 < speed_ratio ≤ 1` → 4 with +0.05; correct and
`speed_ratio > 1` → 3 with −0.10; every delta clamped at `MIN_EASE`. -/
theorem srs_quality_partition (card : SrsCard) (review : ReviewInput)
    (dl : Option ℤ) (n1 n2 : ℤ) :
    ((calculate_srs card review dl n1 n2).speed_ratio = srs_speed_ratio review)
    ∧ ((calculate_srs card review dl n1 n2).quality = 0
        ∨ (calculate_srs card review dl n1 n2).quality = 3
        ∨ (calculate_srs card review dl n1 n2).quality = 4
        ∨ (calculate_srs card review dl n1 n2).quality = 5)
    ∧ (review.correct = false →
        (calculate_srs card review dl n1 n2).quality = 0
        ∧ (calculate_srs card review dl n1 n2).ease_factor
            = max (card.ease_factor - 1/5) MIN_EASE)
    ∧ (review.correct = true → srs_speed_ratio review ≤ 3/5 →
        (calculate_srs card review dl n1 n2).quality = 5
        ∧ (calculate_srs card review dl n1 n2).ease_factor
            = max (card.ease_factor + 3/20) MIN_EASE)
    ∧ (review.correct = true → 3/5 < srs_speed_ratio review →
        srs_speed_ratio review ≤ 1 →
        (calculate_srs card review dl n1 n2).quality = 4
        ∧ (calculate_srs card review dl n1 n2).ease_factor
            = max (card.ease_factor + 1/20) MIN_EASE)
    ∧ (review.correct = true → 1 < srs_speed_ratio review →
        (calculate_srs card review dl n1 n2).quality = 3
        ∧ (calculate_srs card review dl n1 n2).ease_factor
            = max (card.ease_factor - 1/10) MIN_EASE) := by
  rw [calculate_srs_eq]
  refine ⟨rfl, ?_, ?_, ?_, ?_, ?_⟩
  · cases hc : review.correct
    · rw [srs_branch_incorrect]
      left
      rfl
    · rcases le_or_lt (srs_speed_ratio review) (3/5) with h1 | h1
      · rw [srs_branch_fast _ _ h1]
        right; right; right; rfl
      · rcases le_or_lt (srs_speed_ratio review) 1 with h2 | h2
        · rw [srs_branch_normal _ _ (not_le.mpr h1) h2]
          right; right; left; rfl
        · rw [srs_branch_slow _ _ (not_le.mpr h1) (not_le.mpr h2)]
          right; left; rfl
  · intro hc
    rw [hc, srs_branch_incorrect]
    exact ⟨rfl, max_max_self _ _⟩
  · intro hc h1
    rw [hc, srs_branch_fast _ _ h1]
    exact ⟨rfl, rfl⟩
  · intro hc h1 h2
    rw [hc, srs_branch_normal _ _ (not_le.mpr h1) h2]
    exact ⟨rfl, rfl⟩
  · intro hc h2
    rw [hc, srs_branch_slow _ _ (not_le.mpr (lt_trans (by norm_num) h2))
      (not_le.mpr h2)]
    exact ⟨rfl, max_max_self _ _⟩

theorem srs_quality_partition_witness :
    (calculate_srs ⟨5/2, 10, 3, none⟩ ⟨true, 30, 60⟩ none 0 0).quality = 5
    ∧ (calculate_srs ⟨5/2, 10, 3, none⟩ ⟨true, 30, 60⟩ none 0 0).ease_factor
        = 53/20
    ∧ (calculate_srs ⟨5/2, 10, 3, none⟩ ⟨true, 90, 60⟩ none 0 0).quality = 3
    ∧ (calculate_srs ⟨5/2, 10, 3, none⟩ ⟨true, 90, 60⟩ none 0 0).ease_factor
        = 12/5 := by
  have hfast := (srs_quality_partition ⟨5/2, 10, 3, none⟩ ⟨true, 30, 60⟩
    none 0 0).2.2.2.1 rfl (by norm_num [srs_speed_ratio])
  have hslow := (srs_quality_partition ⟨5/2, 10, 3, none⟩ ⟨true, 90, 60⟩
    none 0 0).2.2.2.2.2 rfl (by norm_num [srs_speed_ratio])
  refine ⟨hfast.1, ?_, hslow.1, ?_⟩
  · rw [hfast.2]
    norm_num [MIN_EASE]
  · rw [hslow.2]
    norm_num [MIN_EASE]

/-- C8: an untimed review (`timer_limit_seconds = 0`) always yields
`speed_ratio = 1`, and a timed one yields the exact quotient
`response_time_seconds / timer_limit_seconds`. -/
theorem srs_untimed_neutrality (card : SrsCard) (review : ReviewInput)
    (dl : Option ℤ) (n1 n2 : ℤ) :
    (review.timer_limit_seconds = 0 →
        (calculate_srs card review dl n1 n2).speed_ratio = 1)
    ∧ (0 < review.timer_limit_seconds →
        (calculate_srs card review dl n1 n2).speed_ratio
          = review.response_time_seconds / review.timer_limit_seconds) := by
  rw [calculate_srs_eq]
  unfold srs_speed_ratio
  constructor
  · intro h
    simp [h]
  · intro h
    rw [if_pos h]

theorem srs_untimed_neutrality_witness :
    (calculate_srs ⟨5/2, 10, 3, none⟩ ⟨true, 30, 0⟩ none 0 0).speed_ratio = 1
    ∧ (calculate_srs ⟨5/2, 10, 3, none⟩ ⟨true, 30, 60⟩ none 0 0).speed_ratio
        = 1/2 := by
  have h1 := (srs_untimed_neutrality ⟨5/2, 10, 3, none⟩ ⟨true, 30, 0⟩
    none 0 0).1 rfl
  have h2 := (srs_untimed_neutrality ⟨5/2, 10, 3, none⟩ ⟨true, 30, 60⟩
    none 0 0).2 (by norm_num)
  refine ⟨h1, ?_⟩
  rw [h2]
  norm_num

theorem apply_deadline_none (i : ℚ) (reps : ℤ) (now : ℤ) :
    apply_deadline i reps none now = i := rfl

/-- C5: for every correct review without a deadline (on the documented card
domain `ease_factor ≥ MIN_EASE`), the new interval is
`next_interval` of the updated repetition count, the previous interval, the
updated (post-delta) ease factor, and the speed multiplier 1.3 / 1.0 / 0.8;
so it is 1 when the updated count is ≤ 1, 3 when it is 2, and
`max(prev_interval * ease * multiplier, 1)` from 3 on. -/
theorem srs_graduation_schedule (card : SrsCard) (review : ReviewInput)
    (n1 n2 : ℤ) (hease : MIN_EASE ≤ card.ease_factor)
    (hc : review.correct = true) :
    (calculate_srs card review none n1 n2).interval_days
      = next_interval (card.repetitions + 1) card.interval_days
          (calculate_srs card review none n1 n2).ease_factor
          (if srs_speed_ratio review ≤ 3/5 then 13/10
           else if srs_speed_ratio review ≤ 1 then 1 else 4/5)
    ∧ (card.repetitions + 1 ≤ 1 →
        (calculate_srs card review none n1 n2).interval_days = 1)
    ∧ (card.repetitions + 1 = 2 →
        (calculate_srs card review none n1 n2).interval_days = 3)
    ∧ (3 ≤ card.repetitions + 1 →
        (calculate_srs card review none n1 n2).interval_days
          = max (card.interval_days
              * (calculate_srs card review none n1 n2).ease_factor
              * (if srs_speed_ratio review ≤ 3/5 then 13/10
                 else if srs_speed_ratio review ≤ 1 then 1 else 4/5)) 1) := by
  have heq : (calculate_srs card review none n1 n2).interval_days
      = next_interval (card.repetitions + 1) card.interval_days
          (calculate_srs card review none n1 n2).ease_factor
          (if srs_speed_ratio review ≤ 3/5 then 13/10
           else if srs_speed_ratio review ≤ 1 then 1 else 4/5) := by
    rw [calculate_srs_eq, hc]
    rcases le_or_lt (srs_speed_ratio review) (3/5) with h1 | h1
    · rw [srs_branch_fast _ _ h1, if_pos h1]
      rw [apply_deadline_none,
        max_eq_left (le_trans hease (by linarith))]
    · rcases le_or_lt (srs_speed_ratio review) 1 with h2 | h2
      · rw [srs_branch_normal _ _ (not_le.mpr h1) h2,
          if_neg (not_le.mpr h1), if_pos h2]
        rw [apply_deadline_none,
          max_eq_left (le_trans hease (by linarith))]
      · rw [srs_branch_slow _ _ (not_le.mpr h1) (not_le.mpr h2),
          if_neg (not_le.mpr h1), if_neg (not_le.mpr h2)]
        rw [apply_deadline_none, max_max_self]
  refine ⟨heq, ?_, ?_, ?_⟩
  · intro h
    rw [heq]
    unfold next_interval
    rw [if_pos h]
  · intro h
    rw [heq]
    unfold next_interval
    rw [if_neg (by omega), if_pos h]
  · intro h
    rw [heq]
    unfold next_interval
    rw [if_neg (by omega), if_neg (by omega)]

theorem srs_graduation_schedule_witness :
    MIN_EASE ≤ (5/2 : ℚ)
    ∧ (calculate_srs ⟨5/2, 3, 2, none⟩ ⟨true, 45, 60⟩ none 0 0).interval_days
        = max (3 * (calculate_srs ⟨5/2, 3, 2, none⟩ ⟨true, 45, 60⟩
            none 0 0).ease_factor
            * (if srs_speed_ratio ⟨true, 45, 60⟩ ≤ 3/5 then 13/10
               else if srs_speed_ratio ⟨true, 45, 60⟩ ≤ 1 then 1
               else 4/5)) 1
    ∧ (calculate_srs ⟨5/2, 3, 2, none⟩ ⟨true, 45, 60⟩ none 0 0).interval_days
        = 153/20
    ∧ (calculate_srs ⟨5/2, 3, 2, none⟩ ⟨true, 45, 60⟩ none 0 0).repetitions
        = 3
    ∧ (calculate_srs ⟨5/2, 3, 2, none⟩ ⟨true, 45, 60⟩ none 0 0).quality = 4 := by
  have h := (srs_graduation_schedule ⟨5/2, 3, 2, none⟩ ⟨true, 45, 60⟩ 0 0
    (by norm_num [MIN_EASE]) rfl).2.2.2 (by norm_num)
  refine ⟨by norm_num [MIN_EASE], h, ?_, ?_, ?_⟩
  · norm_num [calculate_srs_eq, srs_branch, srs_speed_ratio, next_interval,
      apply_deadline, MIN_EASE]
  · norm_num [calculate_srs_eq, srs_branch, srs_speed_ratio]
  · norm_num [calculate_srs_eq, srs_branch, srs_speed_ratio]

/-- C7: with a parsed deadline and a positive whole-day remainder
(truncated toward zero, as `num_days` does), the returned interval is
`max(min(uncompressed, days_remaining / max(6 - repetitions, 1)), 1)`, the
repetition count being the updated one; with a nonpositive remainder (or no
parsed deadline, the `none` case) the uncompressed interval stands. -/
theorem srs_deadline_compression_formula (card : SrsCard)
    (review : ReviewInput) (d n1 n2 : ℤ) :
    (0 < (d - n1).tdiv secondsPerDay →
        (calculate_srs card review (some d) n1 n2).interval_days
          = max (min (calculate_srs card review none n1 n2).interval_days
              ((((d - n1).tdiv secondsPerDay : ℤ) : ℚ)
                / ((max (6 - (calculate_srs card review (some d) n1
                    n2).repetitions) 1 : ℤ) : ℚ))) 1)
    ∧ ((d - n1).tdiv secondsPerDay ≤ 0 →
        (calculate_srs card review (some d) n1 n2).interval_days
          = (calculate_srs card review none n1 n2).interval_days) := by
  constructor
  · intro h
    rw [calculate_srs_eq, calculate_srs_eq]
    exact apply_deadline_pos _ _ _ _ h
  · intro h
    rw [calculate_srs_eq, calculate_srs_eq]
    exact apply_deadline_nonpos _ _ _ _ h

theorem srs_deadline_compression_formula_witness :
    (0 : ℤ) < (432000 - 0 : ℤ).tdiv secondsPerDay
    ∧ (calculate_srs ⟨5/2, 10, 3, none⟩ ⟨true, 30, 60⟩ (some 432000)
        0 0).interval_days = 5/2
    ∧ ((-86400 : ℤ) - 0).tdiv secondsPerDay ≤ 0
    ∧ (calculate_srs ⟨5/2, 10, 3, none⟩ ⟨true, 30, 60⟩ (some (-86400))
        0 0).interval_days
      = (calculate_srs ⟨5/2, 10, 3, none⟩ ⟨true, 30, 60⟩ none
        0 0).interval_days := by
  have htd : (432000 - 0 : ℤ).tdiv secondsPerDay = 5 := by decide
  have htd2 : ((-86400 : ℤ) - 0).tdiv secondsPerDay = -1 := by decide
  have hpos := (srs_deadline_compression_formula ⟨5/2, 10, 3, none⟩
    ⟨true, 30, 60⟩ 432000 0 0).1 (by rw [htd]; norm_num)
  have hneg := (srs_deadline_compression_formula ⟨5/2, 10, 3, none⟩
    ⟨true, 30, 60⟩ (-86400) 0 0).2 (by rw [htd2]; norm_num)
  refine ⟨by rw [htd]; norm_num, ?_, by rw [htd2]; norm_num, hneg⟩
  rw [hpos, htd]
  norm_num [calculate_srs_eq, srs_branch, srs_speed_ratio, next_interval,
    apply_deadline, MIN_EASE, min_def, max_def]

/-- C10: when deadline compression applies but the per-review budget
`days_remaining / max(6 - repetitions, 1)` is below 1, the one-day floor
wins: the returned interval is exactly 1, which exceeds the budget cap. -/
theorem srs_floor_beats_deadline_cap (card : SrsCard) (review : ReviewInput)
    (d n1 n2 : ℤ)
    (hdr : 0 < (d - n1).tdiv secondsPerDay)
    (hcap : (((d - n1).tdiv secondsPerDay : ℤ) : ℚ)
        / ((max (6 - (calculate_srs card review (some d) n1
            n2).repetitions) 1 : ℤ) : ℚ) < 1) :
    (calculate_srs card review (some d) n1 n2).interval_days = 1
    ∧ (((d - n1).tdiv secondsPerDay : ℤ) : ℚ)
        / ((max (6 - (calculate_srs card review (some d) n1
            n2).repetitions) 1 : ℤ) : ℚ)
      < (calculate_srs card review (some d) n1 n2).interval_days := by
  have hbase : 1 ≤ (calculate_srs card review none n1 n2).interval_days :=
    one_le_apply_deadline _ _ _ _ (one_le_branch_interval _ _ _)
  have hform : (calculate_srs card review (some d) n1 n2).interval_days
      = max (min (calculate_srs card review none n1 n2).interval_days
          ((((d - n1).tdiv secondsPerDay : ℤ) : ℚ)
            / ((max (6 - (calculate_srs card review (some d) n1
                n2).repetitions) 1 : ℤ) : ℚ))) 1 := by
    rw [calculate_srs_eq, calculate_srs_eq]
    exact apply_deadline_pos _ _ _ _ hdr
  have hmin : min (calculate_srs card review none n1 n2).interval_days
      ((((d - n1).tdiv secondsPerDay : ℤ) : ℚ)
        / ((max (6 - (calculate_srs card review (some d) n1
            n2).repetitions) 1 : ℤ) : ℚ))
      = (((d - n1).tdiv secondsPerDay : ℤ) : ℚ)
        / ((max (6 - (calculate_srs card review (some d) n1
            n2).repetitions) 1 : ℤ) : ℚ) :=
    min_eq_right (le_of_lt (lt_of_lt_of_le hcap hbase))
  have hone : (calculate_srs card review (some d) n1 n2).interval_days = 1 := by
    rw [hform, hmin]
    exact max_eq_right (le_of_lt hcap)
  exact ⟨hone, by rw [hone]; exact hcap⟩

theorem srs_floor_beats_deadline_cap_witness :
    (0 : ℤ) < (86400 - 0 : ℤ).tdiv secondsPerDay
    ∧ (((86400 - 0 : ℤ).tdiv secondsPerDay : ℚ)
        / ((max (6 - (calculate_srs ⟨5/2, 10, 3, none⟩ ⟨false, 30, 60⟩
            (some 86400) 0 0).repetitions) 1 : ℤ) : ℚ) < 1)
    ∧ (calculate_srs ⟨5/2, 10, 3, none⟩ ⟨false, 30, 60⟩ (some 86400)
        0 0).interval_days = 1 := by
  have hrep : (calculate_srs ⟨5/2, 10, 3, none⟩ ⟨false, 30, 60⟩
      (some 86400) 0 0).repetitions = 0 := by
    norm_num [calculate_srs_eq, srs_branch, srs_speed_ratio]
  have htd : (86400 - 0 : ℤ).tdiv secondsPerDay = 1 := by decide
  have hcap : (((86400 - 0 : ℤ).tdiv secondsPerDay : ℤ) : ℚ)
      / ((max (6 - (calculate_srs ⟨5/2, 10, 3, none⟩ ⟨false, 30, 60⟩
          (some 86400) 0 0).repetitions) 1 : ℤ) : ℚ) < 1 := by
    rw [hrep, htd]
    norm_num [max_def]
  have h := srs_floor_beats_deadline_cap ⟨5/2, 10, 3, none⟩ ⟨false, 30, 60⟩
    86400 0 0 (by rw [htd]; norm_num) hcap
  exact ⟨by rw [htd]; norm_num, hcap, h.1⟩

end FlashMath
